import Mathlib

/-!
Verification of the freegie charge-management daemon core: a shallow
embedding of the Chargie AT protocol codec (src/freegie/protocol.py), the
BLE request/response matching (src/freegie/ble.py), the configuration
record and its persistence (src/freegie/config.py), and the charge engine
(src/freegie/engine.py), together with theorems settling the behavioural
claims about them.

Conventions of the embedding:
- Python strings are `List Char`; device frames, commands and keys are all
  `List Char`.
- Python floats produced by parsing device telemetry are rationals.
- Fallible Python code is `Except PyError`; the distinct Python exception
  classes (TimeoutError, ConnectionError, ParseError, ValueError,
  AttributeError) are the constructors of `PyError`.
- The BLE device as seen by the engine is an oracle: a list of entries, one
  consumed per issued command, where `none` models a response timeout and
  `some frame` models the matched response frame.
-/

namespace Freegie

/-- Python exception kinds raised by the embedded code paths. -/
inductive PyError where
  | timeoutError
  | connectionError (msg : String)
  | parseError (msg : String)
  | valueError (msg : String)
  | attributeError (msg : String)
  deriving DecidableEq, Repr

/-- Whitespace set of Python str.strip (space, tab, newline, carriage
return, vertical tab, form feed). -/
def isPySpace (c : Char) : Bool :=
  c = ' ' || c = '\t' || c = '\n' || c = '\r' || c = '\x0b' || c = '\x0c'

/-- Embedding of Python str.strip: whitespace removed from both ends. -/
def pyStrip (s : List Char) : List Char :=
  (((s.dropWhile isPySpace).reverse.dropWhile isPySpace)).reverse

/-- Embedding of Python str.split(sep) for a one-character separator:
splits at every occurrence, keeping empty segments. -/
def splitAllChar (c : Char) : List Char → List (List Char)
  | [] => [[]]
  | x :: xs =>
    if x = c then [] :: splitAllChar c xs
    else
      match splitAllChar c xs with
      | [] => [[x]]
      | h :: t => (x :: h) :: t

/-- Digit character for a decimal digit (rendering side of the device
number grammar); values above 9 map to a non-digit placeholder. -/
def digitChr (d : Nat) : Char :=
  if d = 0 then '0' else if d = 1 then '1' else if d = 2 then '2'
  else if d = 3 then '3' else if d = 4 then '4' else if d = 5 then '5'
  else if d = 6 then '6' else if d = 7 then '7' else if d = 8 then '8'
  else if d = 9 then '9' else 'X'

/-- Numeric value of a decimal digit character, as used by Python float
parsing on digit characters. -/
def digitVal? (c : Char) : Option Nat :=
  if c = '0' then some 0 else if c = '1' then some 1 else if c = '2' then some 2
  else if c = '3' then some 3 else if c = '4' then some 4 else if c = '5' then some 5
  else if c = '6' then some 6 else if c = '7' then some 7 else if c = '8' then some 8
  else if c = '9' then some 9 else none

/-- Values of a run of digit characters, or none when a non-digit occurs. -/
def digitsVal? : List Char → Option (List Nat)
  | [] => some []
  | c :: cs =>
    match digitVal? c, digitsVal? cs with
    | some d, some ds => some (d :: ds)
    | _, _ => none

/-- Left fold computing the value of a big-endian digit list. -/
def natOfDigits (ds : List Nat) : Nat :=
  ds.foldl (fun a d => 10 * a + d) 0

/-- Embedding of Python float() restricted to unsigned plain decimal
literals (optional single dot, at least one digit), the only shapes the
device telemetry grammar and the claims quantify over. Any other input is
a parse failure, matching a Python ValueError from float(). -/
def pyFloat? (s : List Char) : Option ℚ :=
  match splitAllChar '.' s with
  | [ip] =>
    match digitsVal? ip with
    | some ds => if ds = [] then none else some (natOfDigits ds : ℚ)
    | none => none
  | [ip, fp] =>
    match digitsVal? ip, digitsVal? fp with
    | some i, some f =>
      if i = [] ∧ f = [] then none
      else some ((natOfDigits i : ℚ) + (natOfDigits f : ℚ) / (10 : ℚ) ^ fp.length)
    | _, _ => none
  | _ => none

/-! Protocol codec, from src/freegie/protocol.py. -/

/-- Command constant AT+STAT? from protocol.py. -/
def CMD_STAT : List Char := "AT+STAT?".toList
/-- Command constant AT+CAPA? from protocol.py. -/
def CMD_CAPA : List Char := "AT+CAPA?".toList
/-- Command constant AT+FWVR? from protocol.py. -/
def CMD_FWVR : List Char := "AT+FWVR?".toList
/-- Command constant AT+HWVR? from protocol.py. -/
def CMD_HWVR : List Char := "AT+HWVR?".toList
/-- Command constant AT+ISPD? from protocol.py. -/
def CMD_ISPD : List Char := "AT+ISPD?".toList
/-- Command constant AT+PIO20 (cut USB-C power) from protocol.py. -/
def CMD_POWER_OFF : List Char := "AT+PIO20".toList
/-- Command constant AT+PIO21 (restore USB-C power) from protocol.py. -/
def CMD_POWER_ON : List Char := "AT+PIO21".toList
/-- Command constant AT+PDMO1 (half PD) from protocol.py. -/
def CMD_PD_MODE_1 : List Char := "AT+PDMO1".toList
/-- Command constant AT+PDMO2 (full PD) from protocol.py. -/
def CMD_PD_MODE_2 : List Char := "AT+PDMO2".toList

/-- Telemetry record from protocol.py: volts and amps (floats embedded as
rationals). -/
structure Telemetry where
  volts : ℚ
  amps : ℚ
  deriving DecidableEq, Repr

/-- Capabilities record from protocol.py. -/
structure Capabilities where
  raw : ℤ
  pd : Bool
  fet2 : Bool
  auto : Bool
  deriving DecidableEq, Repr

/-- DeviceInfo record from protocol.py. -/
structure DeviceInfo where
  firmware : List Char
  hardware : List Char
  capabilities : Capabilities
  deriving DecidableEq, Repr

/-- Embedding of protocol.parse_response: strip, require the OK+ marker,
split the body at the first colon into key and value. -/
def parse_response (raw : List Char) : Except PyError (List Char × List Char) :=
  let r := pyStrip raw
  if ("OK+".toList).isPrefixOf r then
    let body := r.drop 3
    if ':' ∈ body then
      .ok (body.takeWhile (fun c => c ≠ ':'), (body.dropWhile (fun c => c ≠ ':')).tail)
    else
      .ok (body, [])
  else
    .error (.parseError "Not an OK+ response")

/-- Embedding of protocol.parse_telemetry: a STAT response whose payload is
amps/volts; the payload is consumed amps first, volts second, and any
malformed payload is a ParseError. -/
def parse_telemetry (raw : List Char) : Except PyError Telemetry :=
  match parse_response raw with
  | .error e => .error e
  | .ok (key, value) =>
    if key = "STAT".toList then
      match splitAllChar '/' value with
      | [amps_s, volts_s] =>
        match pyFloat? amps_s, pyFloat? volts_s with
        | some a, some v => .ok ⟨v, a⟩
        | _, _ => .error (.parseError "Bad STAT payload")
      | _ => .error (.parseError "Bad STAT payload")
    else .error (.parseError "Expected STAT response")

/-- Embedding of protocol.parse_power_state: a PIO2 response whose payload
is the character 1 (on) or 0 (off). -/
def parse_power_state (raw : List Char) : Except PyError Bool :=
  match parse_response raw with
  | .error e => .error e
  | .ok (key, value) =>
    if key = "PIO2".toList then
      if value = "1".toList then .ok true
      else if value = "0".toList then .ok false
      else .error (.parseError "Bad PIO2 payload")
    else .error (.parseError "Expected PIO2 response")

/-! Configuration, from src/freegie/config.py. -/

/-- ChargeConfig record from config.py. -/
structure ChargeConfig where
  charge_max : ℤ
  charge_min : ℤ
  pd_mode : ℤ
  poll_interval : ℤ
  telemetry_interval : ℤ
  auto_reconnect : Bool
  deriving DecidableEq, Repr

/-- Embedding of the ChargeConfig constructor together with its
post-init validation, in source order: charge_max range, charge_min
range, min strictly below max, pd_mode in the two-element set. Python
default arguments (80, 75, 2, 3, 30, true) are applied at call sites. -/
def mkChargeConfig (charge_max charge_min pd_mode poll_interval telemetry_interval : ℤ)
    (auto_reconnect : Bool) : Except PyError ChargeConfig :=
  if ¬(20 ≤ charge_max ∧ charge_max ≤ 100) then
    .error (.valueError "charge.charge_max must be 20-100")
  else if ¬(20 ≤ charge_min ∧ charge_min ≤ 100) then
    .error (.valueError "charge.charge_min must be 20-100")
  else if charge_min ≥ charge_max then
    .error (.valueError "charge.charge_min must be less than charge.charge_max")
  else if ¬(pd_mode = 1 ∨ pd_mode = 2) then
    .error (.valueError "charge.pd_mode must be 1 or 2")
  else
    .ok ⟨charge_max, charge_min, pd_mode, poll_interval, telemetry_interval, auto_reconnect⟩

/-- Dynamically typed Python value passed in the path parameter slot of
save_state: either an int (as the engine actually passes) or a filesystem
path (as the signature intends). -/
inductive PyVal where
  | int (n : ℤ)
  | fsPath (p : String)
  deriving DecidableEq, Repr

/-- Embedding of config.save_state(charge_max, charge_min,
telemetry_interval=30, path=_STATE_FILE). The body evaluates path.parent,
so a non-path fourth argument raises AttributeError; on a path it writes
exactly the keys charge_max, charge_min, telemetry_interval. -/
def save_state (charge_max charge_min telemetry_interval : ℤ) (p : PyVal) :
    Except PyError (List (String × ℤ)) :=
  match p with
  | .fsPath _ =>
    .ok [("charge_max", charge_max), ("charge_min", charge_min),
         ("telemetry_interval", telemetry_interval)]
  | .int _ => .error (.attributeError "int object has no attribute parent")

/-- Embedding of ChargeEngine.update_config (engine.py lines 119-147).
Returns the newly assigned config (Python assigns self._config before
persisting) paired with the outcome of the save_state call when the
change check fires: none when unchanged, some result otherwise. The
ChargeConfig rebuild passes poll_interval through but omits
auto_reconnect, which therefore takes the dataclass default true, and the
save_state call passes pd_mode as the fourth positional argument, which
is the path parameter. -/
def update_config (cfg : ChargeConfig)
    (charge_max charge_min pd_mode telemetry_interval : Option ℤ) :
    Except PyError (ChargeConfig × Option (Except PyError (List (String × ℤ)))) :=
  match mkChargeConfig
      (charge_max.getD cfg.charge_max)
      (charge_min.getD cfg.charge_min)
      (pd_mode.getD cfg.pd_mode)
      cfg.poll_interval
      (telemetry_interval.getD cfg.telemetry_interval)
      true with
  | .error e => .error e
  | .ok newCfg =>
    let changed : Bool :=
      newCfg.charge_max ≠ cfg.charge_max || newCfg.charge_min ≠ cfg.charge_min
        || newCfg.telemetry_interval ≠ cfg.telemetry_interval
        || newCfg.pd_mode ≠ cfg.pd_mode
    if changed then
      .ok (newCfg, some (save_state newCfg.charge_max newCfg.charge_min
        newCfg.telemetry_interval (PyVal.int newCfg.pd_mode)))
    else
      .ok (newCfg, none)

/-! BLE transport, from src/freegie/ble.py. -/

/-- Table _STRIP_LAST_DIGIT from ble.py: command bodies whose final digit
encodes a parameter. -/
def STRIP_LAST_DIGIT : List (List Char) :=
  ["PIO20".toList, "PIO21".toList, "PDMO1".toList, "PDMO2".toList]

/-- Drop all trailing question marks, embedding Python str.rstrip with
separator string consisting of the question mark. -/
def rstripQm (s : List Char) : List Char :=
  (s.reverse.dropWhile (fun c => c = '?')).reverse

/-- Embedding of ble._expected_response_key: strip the AT+ marker when
present, drop trailing question marks, and for the four parameterised
setter commands drop the final digit. -/
def expected_response_key (command : List Char) : List Char :=
  let body := if ("AT+".toList).isPrefixOf command then command.drop 3 else command
  let body := rstripQm body
  if body ∈ STRIP_LAST_DIGIT then body.dropLast else body

/-- Embedding of ble._response_key: drop the three marker characters, then
keep everything before the first colon when one is present. -/
def response_key (response : List Char) : List Char :=
  let body := response.drop 3
  if ':' ∈ body then body.takeWhile (fun c => c ≠ ':') else body

/-- Matching test of ble.send_command: a queued frame answers the command
iff it starts with OK+ and its key equals the expected key. -/
def frame_matches (command frame : List Char) : Bool :=
  ("OK+".toList).isPrefixOf frame && response_key frame == expected_response_key command

/-- Scanning loop of ble.send_command over the notification queue, with an
accumulator of frames already handed to the unsolicited callbacks. Returns
the outcome, the frames left in the queue, and the dispatched frames in
order. An exhausted queue models the deadline expiring with no match. -/
def send_command_go (command : List Char) :
    List (List Char) → List (List Char) →
    Except PyError (List Char) × List (List Char) × List (List Char)
  | [], dispatched => (.error .timeoutError, [], dispatched)
  | f :: rest, dispatched =>
    if frame_matches command f then (.ok f, rest, dispatched)
    else send_command_go command rest (dispatched ++ [f])

/-- Embedding of ble.send_command on a queue of pending notification
frames. -/
def send_command (command : List Char) (queue : List (List Char)) :
    Except PyError (List Char) × List (List Char) × List (List Char) :=
  send_command_go command queue []

/-! Charge engine, from src/freegie/engine.py. -/

/-- Engine phases from engine.py. -/
inductive Phase where
  | IDLE | SCANNING | CONNECTING | VERIFYING | NEGOTIATING_CHARGE
  | CHARGING | PAUSED | DISCONNECTED | RECONNECTING
  deriving DecidableEq, Repr

/-- BLE connection states from ble.py. -/
inductive ConnState where
  | DISCONNECTED | SCANNING | CONNECTING | CONNECTED
  deriving DecidableEq, Repr

/-- Manual override modes stored in the engine (the Python strings on and
off; None is the auto position). -/
inductive OverrideMode where
  | on | off
  deriving DecidableEq, Repr

/-- Engine state: the mutable fields of ChargeEngine that the claims
observe, plus a log of the successful command/response exchanges (oldest
first) standing in for what the device has acknowledged. Task handles are
reduced to the booleans that say whether each loop is running. -/
structure EngineState where
  phase : Phase
  charging : Bool
  override : Option OverrideMode
  telemetry : Option Telemetry
  deviceInfo : Option DeviceInfo
  stopped : Bool
  sysfsPolling : Bool
  keepalivePolling : Bool
  reconnectActive : Bool
  config : ChargeConfig
  cmdLog : List (List Char × List Char)
  deriving DecidableEq, Repr

/-- Device oracle for engine-level runs: one entry consumed per issued
command; none is a response timeout, some frame is the matched response. -/
abbrev DevOracle := List (Option (List Char))

/-- One engine-side send_command exchange against the oracle: a success is
appended to the exchange log. -/
def engSend (cmd : List Char) (st : EngineState) (dev : DevOracle) :
    Except PyError (List Char) × EngineState × DevOracle :=
  match dev with
  | [] => (.error .timeoutError, st, [])
  | none :: rest => (.error .timeoutError, st, rest)
  | some f :: rest => (.ok f, { st with cmdLog := st.cmdLog ++ [(cmd, f)] }, rest)

/-- Embedding of ChargeEngine._power_off: guarded POWER_OFF whose response
must report off, then the charging flag is cleared. -/
def power_off (st : EngineState) (dev : DevOracle) :
    Except PyError Unit × EngineState × DevOracle :=
  match engSend CMD_POWER_OFF st dev with
  | (.error e, st', dev') => (.error e, st', dev')
  | (.ok resp, st', dev') =>
    match parse_power_state resp with
    | .error e => (.error e, st', dev')
    | .ok true => (.error (.connectionError "CMD_POWER_OFF but device reports ON"), st', dev')
    | .ok false => (.ok (), { st' with charging := false }, dev')

/-- Modelled from the spec: PD_MIN_VOLTS = 5.5 V. The constant is imported
by engine.py from freegie.protocol but is absent from the protocol.py
under src; the spec fixes its value (USB base voltage is 5 V, anything
strictly above confirms a PD step-up). -/
def PD_MIN_VOLTS : ℚ := 11 / 2

/-- Modelled from the spec: PD_CONFIRM_TIMEOUT = 10 s polled once per
second, hence ten polls per confirmation window. The timeout constant is
imported by engine.py from freegie.protocol but is absent from the
protocol.py under src; the one-second cadence is the sleep in
_confirm_pd_active. -/
def PD_CONFIRM_POLLS : Nat := 10

/-- Embedding of ChargeEngine._confirm_pd_active, with the continuous
deadline discretised into one poll per second: each iteration issues
STAT?, a timeout or connection failure is caught and the loop continues, a
parsed reading latches success exactly when its volts exceed
PD_MIN_VOLTS (storing the telemetry), and a malformed reading raises a
ParseError that the except clause does not catch. -/
def confirm_pd_active : Nat → EngineState → DevOracle →
    Except PyError Bool × EngineState × DevOracle
  | 0, st, dev => (.ok false, st, dev)
  | fuel + 1, st, dev =>
    match engSend CMD_STAT st dev with
    | (.error _, st', dev') => confirm_pd_active fuel st' dev'
    | (.ok resp, st', dev') =>
      match parse_telemetry resp with
      | .error e => (.error e, st', dev')
      | .ok t =>
        if PD_MIN_VOLTS < t.volts then
          (.ok true, { st' with telemetry := some t }, dev')
        else
          confirm_pd_active fuel st' dev'

/-- Tail of one _power_on attempt after the ISPD? query: the PD mode
command chosen by config.pd_mode (whose failures propagate) followed by
the PD confirmation window. -/
def power_on_attempt_rest (st : EngineState) (dev : DevOracle) :
    Except PyError Bool × EngineState × DevOracle :=
  match engSend (if st.config.pd_mode = 2 then CMD_PD_MODE_2 else CMD_PD_MODE_1) st dev with
  | (.error e, st', dev') => (.error e, st', dev')
  | (.ok _, st', dev') => confirm_pd_active PD_CONFIRM_POLLS st' dev'

/-- One iteration of the attempt loop in ChargeEngine._power_on: clean
power-off (guarded), power-on (guarded, setting the charging flag), ISPD?
query with timeout and connection failures swallowed, PD mode command per
config, then the PD confirmation window. An ok boolean reports whether PD
was confirmed in this attempt. -/
def power_on_attempt (st : EngineState) (dev : DevOracle) :
    Except PyError Bool × EngineState × DevOracle :=
  match power_off st dev with
  | (.error e, st', dev') => (.error e, st', dev')
  | (.ok _, st1, dev1) =>
    match engSend CMD_POWER_ON st1 dev1 with
    | (.error e, st', dev') => (.error e, st', dev')
    | (.ok resp, st2, dev2) =>
      match parse_power_state resp with
      | .error e => (.error e, st2, dev2)
      | .ok false =>
        (.error (.connectionError "CMD_POWER_ON but device reports OFF"), st2, dev2)
      | .ok true =>
        let st3 := { st2 with charging := true }
        match engSend CMD_ISPD st3 dev2 with
        | (.error _, st4, dev4) =>
          power_on_attempt_rest st4 dev4
        | (.ok _, st4, dev4) =>
          power_on_attempt_rest st4 dev4

/-- Attempt loop of ChargeEngine._power_on: up to the given number of
attempts, returning when one confirms PD and raising the PD-negotiation
ConnectionError when all are exhausted. -/
def power_on_go : Nat → EngineState → DevOracle →
    Except PyError Unit × EngineState × DevOracle
  | 0, st, dev => (.error (.connectionError "PD negotiation failed after 3 attempts"), st, dev)
  | n + 1, st, dev =>
    match power_on_attempt st dev with
    | (.error e, st', dev') => (.error e, st', dev')
    | (.ok true, st', dev') => (.ok (), st', dev')
    | (.ok false, st', dev') => power_on_go n st' dev'

/-- Embedding of ChargeEngine._power_on: three attempts. -/
def power_on (st : EngineState) (dev : DevOracle) :
    Except PyError Unit × EngineState × DevOracle :=
  power_on_go 3 st dev

/-- Embedding of ChargeEngine._enforce_limit: a no-op when an override is
set, otherwise the threshold cut, threshold restore and safety-net
branches in source order. The spawned sysfs confirmation tasks read the
battery only and issue no BLE commands, so they do not appear in the
oracle. -/
def enforce_limit (st : EngineState) (percent : ℤ) (dev : DevOracle) :
    Except PyError Unit × EngineState × DevOracle :=
  if st.override.isSome then (.ok (), st, dev)
  else if st.phase = Phase.CHARGING ∧ percent ≥ st.config.charge_max then
    match power_off st dev with
    | (.error e, st', dev') => (.error e, st', dev')
    | (.ok _, st', dev') => (.ok (), { st' with phase := Phase.PAUSED }, dev')
  else if st.phase = Phase.PAUSED ∧ percent ≤ st.config.charge_min then
    match power_on st dev with
    | (.error e, st', dev') => (.error e, st', dev')
    | (.ok _, st', dev') => (.ok (), { st' with phase := Phase.NEGOTIATING_CHARGE }, dev')
  else if st.phase = Phase.CHARGING ∧ st.charging = false then
    match power_on st dev with
    | (.error e, st', dev') => (.error e, st', dev')
    | (.ok _, st', dev') => (.ok (), { st' with phase := Phase.NEGOTIATING_CHARGE }, dev')
  else (.ok (), st, dev)

/-- Embedding of ChargeEngine._handle_ble_state: nothing when stopped; on
a DISCONNECTED transport state the polling tasks are cancelled and the
charging flag and override are cleared, and when the engine was in an
active-side phase it moves to DISCONNECTED, then to RECONNECTING with the
reconnect task started when auto_reconnect is enabled. -/
def handle_ble_state (st : EngineState) (bs : ConnState) : EngineState :=
  if st.stopped then st
  else if bs = ConnState.DISCONNECTED then
    if st.phase ≠ Phase.IDLE ∧ st.phase ≠ Phase.DISCONNECTED
        ∧ st.phase ≠ Phase.RECONNECTING then
      if st.config.auto_reconnect then
        { st with sysfsPolling := false, keepalivePolling := false,
                  charging := false, override := none,
                  phase := Phase.RECONNECTING, reconnectActive := true }
      else
        { st with sysfsPolling := false, keepalivePolling := false,
                  charging := false, override := none,
                  phase := Phase.DISCONNECTED }
    else
      { st with sysfsPolling := false, keepalivePolling := false,
                charging := false, override := none }
  else st

/-- One iteration of the polling body of ChargeEngine._keepalive_loop: a
STAT? timeout is caught by the inner except clause and the loop goes on; a
response is parsed by parse_telemetry, whose ParseError is caught by none
of the handlers in the loop and therefore propagates. -/
def keepalive_iter (st : EngineState) (entry : Option (List Char)) :
    Except PyError EngineState :=
  match entry with
  | none => .ok st
  | some f =>
    match parse_telemetry f with
    | .ok t => .ok { st with telemetry := some t }
    | .error e => .error e

/-- Run of ChargeEngine._keepalive_loop over a finite list of poll
outcomes: an ok result means the loop was still running after consuming
them (it is only ever stopped by cancellation); an error result means an
uncaught exception terminated the loop. -/
def keepalive_run (st : EngineState) : List (Option (List Char)) →
    Except PyError EngineState
  | [] => .ok st
  | e :: rest =>
    match keepalive_iter st e with
    | .ok st' => keepalive_run st' rest
    | .error err => .error err

/-- Happy-path tail of ChargeEngine.start from an already verified
connection: _power_on, phase NEGOTIATING_CHARGE, pollers started, then the
background _await_sysfs_charging task, which reads the battery until sysfs
reports Charging (no BLE commands) and promotes the phase to CHARGING.
Models the run on which sysfs does confirm. -/
def start_charging_run (st : EngineState) (dev : DevOracle) :
    Except PyError Unit × EngineState × DevOracle :=
  match power_on st dev with
  | (.error e, st', dev') => (.error e, st', dev')
  | (.ok _, st', dev') =>
    (.ok (), { st' with phase := Phase.CHARGING, sysfsPolling := true,
                        keepalivePolling := true }, dev')

/-! Shared concrete values and spec-side predicates used by the claim
theorems. -/

/-- ChargeConfig with every field at its dataclass default. -/
def cfgDefault : ChargeConfig := ⟨80, 75, 2, 3, 30, true⟩

/-- ChargeConfig with auto_reconnect disabled and a non-default
poll_interval, as a user config file may produce. -/
def cfgNoReconnect : ChargeConfig := ⟨80, 75, 2, 7, 30, false⟩

/-- Engine state as constructed: IDLE, nothing cached, default config. -/
def st0 : EngineState :=
  ⟨Phase.IDLE, false, none, none, none, false, false, false, false, cfgDefault, []⟩

/-- Sample populated DeviceInfo. -/
def devInfoEx : DeviceInfo := ⟨"1.0".toList, "2.0".toList, ⟨7, true, true, true⟩⟩

/-- Engine state of an established charging session: telemetry and device
info cached, pollers running. -/
def stConnected : EngineState :=
  { st0 with phase := Phase.CHARGING, charging := true,
             telemetry := some ⟨9, 1⟩, deviceInfo := some devInfoEx,
             sysfsPolling := true, keepalivePolling := true }

/-- Engine state of a charging session with a manual override latched. -/
def stOverride : EngineState :=
  { stConnected with override := some OverrideMode.on }

/-- STAT frame reporting base USB voltage (0.00 A / 5.00 V). -/
def baseStatFrame : List Char := "OK+STAT:0.00/5.00".toList

/-- STAT frame reporting a negotiated PD contract (3.00 A / 15.00 V). -/
def goodStatFrame : List Char := "OK+STAT:3.00/15.00".toList

/-- STAT frame with a payload the telemetry parser rejects. -/
def garbageStatFrame : List Char := "OK+STAT:garbage".toList

/-- Device oracle for one fully successful _power_on attempt: clean
power-off, power-on, ISPD? answer, PD mode acknowledgement, then a STAT
reading above the PD threshold. -/
def okAttemptOracle : DevOracle :=
  [some ("OK+PIO2:0".toList), some ("OK+PIO2:1".toList), some ("OK+ISPD:1".toList),
   some ("OK+PDMO:2".toList), some goodStatFrame]

/-- Device oracle for one _power_on attempt whose handshake succeeds but
whose entire confirmation window reports only base USB voltage. -/
def failAttemptOracle : DevOracle :=
  [some ("OK+PIO2:0".toList), some ("OK+PIO2:1".toList), some ("OK+ISPD:1".toList),
   some ("OK+PDMO:2".toList)] ++ List.replicate PD_CONFIRM_POLLS (some baseStatFrame)

/-- Oracle entry that latches PD confirmation: a frame parsing to a
telemetry reading whose volts exceed PD_MIN_VOLTS. -/
def pdGood (o : Option (List Char)) : Prop :=
  ∃ f t, o = some f ∧ parse_telemetry f = Except.ok t ∧ PD_MIN_VOLTS < t.volts

/-- Well-formed STAT oracle: every delivered frame parses as telemetry (no
confirmation poll aborts on a malformed frame). -/
def pdWF (resps : DevOracle) : Prop :=
  ∀ f, some f ∈ resps → ∃ t, parse_telemetry f = Except.ok t

/-- Oracle entry that fails to latch PD confirmation: a timeout, or a
reading at or below the threshold. -/
def pdFailEntry (o : Option (List Char)) : Prop :=
  o = none ∨ ∃ f t, o = some f ∧ parse_telemetry f = Except.ok t ∧ ¬ PD_MIN_VOLTS < t.volts

/-- Oracle slice of one _power_on attempt whose power-cycle handshake and
PD-mode command succeed but in which no confirmation reading exceeds the
threshold. -/
def failedAttemptOracle (a : DevOracle) : Prop :=
  ∃ offR onR ispd pdmoR stats,
    a = some offR :: some onR :: ispd :: some pdmoR :: stats ∧
    parse_power_state offR = Except.ok false ∧
    parse_power_state onR = Except.ok true ∧
    stats.length = PD_CONFIRM_POLLS ∧
    ∀ o ∈ stats, pdFailEntry o

/-- Test for the two relay commands PIO20 and PIO21. -/
def isPowerCmd (cmd : List Char) : Bool :=
  cmd == CMD_POWER_OFF || cmd == CMD_POWER_ON

/-- Most recent relay-command exchange in a log. -/
def lastPowerExchange (log : List (List Char × List Char)) :
    Option (List Char × List Char) :=
  (log.filter (fun e => isPowerCmd e.1)).getLast?

/-- Rendering of an unsigned decimal numeral of the device grammar:
big-endian integer digits, optionally a dot and fraction digits. -/
def renderNum (i : List Nat) (f : Option (List Nat)) : List Char :=
  i.map digitChr ++ (match f with | none => [] | some fd => '.' :: fd.map digitChr)

/-- Mathematical value of such a numeral. -/
def numVal (i : List Nat) (f : Option (List Nat)) : ℚ :=
  ((Nat.ofDigits 10 i.reverse : ℕ) : ℚ) +
    (match f with
     | none => 0
     | some fd => ((Nat.ofDigits 10 fd.reverse : ℕ) : ℚ) / (10 : ℚ) ^ fd.length)

/-- All entries are single decimal digits. -/
def DigitsOk (ds : List Nat) : Prop := ∀ d ∈ ds, d < 10

/-- Digit condition on an optional fraction part. -/
def FracOk : Option (List Nat) → Prop
  | none => True
  | some fd => DigitsOk fd

/-- Decidable equality of Except results, so that concrete runs can be
evaluated in witnesses. -/
instance instDecEqExcept {ε α : Type} [DecidableEq ε] [DecidableEq α] :
    DecidableEq (Except ε α) := fun x y =>
  match x, y with
  | .ok a, .ok b =>
    if h : a = b then isTrue (by rw [h])
    else isFalse (fun hc => by cases hc; exact h rfl)
  | .error a, .error b =>
    if h : a = b then isTrue (by rw [h])
    else isFalse (fun hc => by cases hc; exact h rfl)
  | .ok _, .error _ => isFalse (fun hc => by cases hc)
  | .error _, .ok _ => isFalse (fun hc => by cases hc)

/-! Theorems. -/

theorem pdGood_none_false : ¬ pdGood none := by
  rintro ⟨f, t, h, _⟩
  cases h

theorem pdGood_some_iff (f : List Char) :
    pdGood (some f) ↔ ∃ t, parse_telemetry f = Except.ok t ∧ PD_MIN_VOLTS < t.volts := by
  constructor
  · rintro ⟨f', t, hf, ht, hv⟩
    cases hf
    exact ⟨t, ht, hv⟩
  · rintro ⟨t, ht, hv⟩
    exact ⟨f, t, rfl, ht, hv⟩

/-- Latch characterisation of the PD confirmation window over well-formed
STAT responses: success exactly when some reading in the window exceeds
the threshold. -/
theorem confirm_pd_iff : ∀ (fuel : Nat) (st : EngineState) (resps : DevOracle),
    pdWF resps →
    (((confirm_pd_active fuel st resps).1 = Except.ok true) ↔
      ∃ o ∈ resps.take fuel, pdGood o) := by
  intro fuel
  induction fuel with
  | zero =>
    intro st resps _
    simp [confirm_pd_active]
  | succ n ih =>
    intro st resps hwf
    cases resps with
    | nil =>
      have h0 : ∀ st' : EngineState,
          ((confirm_pd_active n st' ([] : DevOracle)).1 = Except.ok true) ↔
            ∃ o ∈ ([] : DevOracle).take n, pdGood o :=
        fun st' => ih st' [] (fun f hf => absurd hf (List.not_mem_nil _))
      calc ((confirm_pd_active (n + 1) st ([] : DevOracle)).1 = Except.ok true)
          ↔ ∃ o ∈ ([] : DevOracle).take n, pdGood o := h0 st
        _ ↔ ∃ o ∈ ([] : DevOracle).take (n + 1), pdGood o := by simp
    | cons o rest =>
      have hwrest : pdWF rest := fun f hf => hwf f (List.mem_cons_of_mem _ hf)
      cases o with
      | none =>
        have step : confirm_pd_active (n + 1) st (none :: rest) =
            confirm_pd_active n st rest := rfl
        rw [step, ih st rest hwrest, List.take_succ_cons]
        constructor
        · rintro ⟨o, ho, hg⟩
          exact ⟨o, List.mem_cons_of_mem _ ho, hg⟩
        · rintro ⟨o, ho, hg⟩
          rcases List.mem_cons.mp ho with rfl | ho
          · exact absurd hg pdGood_none_false
          · exact ⟨o, ho, hg⟩
      | some f =>
        obtain ⟨t, ht⟩ := hwf f (List.mem_cons_self _ _)
        by_cases hv : PD_MIN_VOLTS < t.volts
        · have step : (confirm_pd_active (n + 1) st (some f :: rest)).1 = Except.ok true := by
            simp only [confirm_pd_active, engSend, ht]
            rw [if_pos hv]
          rw [step, List.take_succ_cons]
          exact iff_of_true rfl
            ⟨some f, List.mem_cons_self _ _, (pdGood_some_iff f).mpr ⟨t, ht, hv⟩⟩
        · have step : confirm_pd_active (n + 1) st (some f :: rest) =
              confirm_pd_active n
                { st with cmdLog := st.cmdLog ++ [(CMD_STAT, f)] } rest := by
            simp only [confirm_pd_active, engSend, ht]
            rw [if_neg hv]
          rw [step, ih _ rest hwrest, List.take_succ_cons]
          constructor
          · rintro ⟨o, ho, hg⟩
            exact ⟨o, List.mem_cons_of_mem _ ho, hg⟩
          · rintro ⟨o, ho, hg⟩
            rcases List.mem_cons.mp ho with rfl | ho
            · obtain ⟨t', ht', hv'⟩ := (pdGood_some_iff f).mp hg
              rw [ht] at ht'
              cases ht'
              exact absurd hv' hv
            · exact ⟨o, ho, hg⟩

/-- An all-failing confirmation window returns false and consumes exactly
its own oracle slice. -/
theorem confirm_pd_fail : ∀ (stats : DevOracle),
    (∀ o ∈ stats, pdFailEntry o) →
    ∀ (st : EngineState) (rest : DevOracle),
      ∃ st', confirm_pd_active stats.length st (stats ++ rest) =
        (Except.ok false, st', rest) ∧ st'.charging = st.charging := by
  intro stats
  induction stats with
  | nil =>
    intro _ st rest
    exact ⟨st, rfl, rfl⟩
  | cons o os ih =>
    intro hf st rest
    have hos : ∀ x ∈ os, pdFailEntry x := fun x hx => hf x (List.mem_cons_of_mem _ hx)
    rcases hf o (List.mem_cons_self _ _) with rfl | ⟨f, t, rfl, ht, hv⟩
    · obtain ⟨st', h1, h2⟩ := ih hos st rest
      exact ⟨st', h1, h2⟩
    · obtain ⟨st', h1, h2⟩ := ih hos { st with cmdLog := st.cmdLog ++ [(CMD_STAT, f)] } rest
      refine ⟨st', ?_, h2⟩
      show confirm_pd_active (os.length + 1) st (some f :: (os ++ rest)) = _
      simp only [confirm_pd_active, engSend, ht]
      rw [if_neg hv]
      exact h1

theorem dropWhile_eq_self_of_forall (p : Char → Bool) (s : List Char)
    (h : ∀ c ∈ s, p c = false) : s.dropWhile p = s := by
  cases s with
  | nil => rfl
  | cons c cs =>
    exact List.dropWhile_cons_of_neg (by simp [h c (List.mem_cons_self c cs)])

theorem pyStrip_eq_self (s : List Char) (h : ∀ c ∈ s, isPySpace c = false) :
    pyStrip s = s := by
  unfold pyStrip
  rw [dropWhile_eq_self_of_forall isPySpace s h,
      dropWhile_eq_self_of_forall isPySpace s.reverse
        (fun c hc => h c (List.mem_reverse.mp hc)),
      List.reverse_reverse]

/-- Character facts about rendered digits: never whitespace, never one of
the three structural separators. -/
theorem digitChr_props (d : Nat) :
    isPySpace (digitChr d) = false ∧ digitChr d ≠ '/' ∧ digitChr d ≠ ':'
      ∧ digitChr d ≠ '.' := by
  unfold digitChr
  split_ifs <;> decide

theorem renderNum_chars (i : List Nat) (f : Option (List Nat)) :
    ∀ c ∈ renderNum i f,
      isPySpace c = false ∧ c ≠ '/' ∧ c ≠ ':' := by
  intro c hc
  unfold renderNum at hc
  rcases List.mem_append.mp hc with h | h
  · obtain ⟨d, _, rfl⟩ := List.mem_map.mp h
    exact ⟨(digitChr_props d).1, (digitChr_props d).2.1, (digitChr_props d).2.2.1⟩
  · cases f with
    | none => cases h
    | some fd =>
      rcases List.mem_cons.mp h with rfl | h
      · decide
      · obtain ⟨d, _, rfl⟩ := List.mem_map.mp h
        exact ⟨(digitChr_props d).1, (digitChr_props d).2.1, (digitChr_props d).2.2.1⟩

theorem digitVal?_digitChr (d : Nat) (h : d < 10) :
    digitVal? (digitChr d) = some d := by
  unfold digitChr
  split_ifs
  all_goals first
  | (subst_vars; decide)
  | (exfalso; omega)

theorem digitsVal?_map (i : List Nat) (h : DigitsOk i) :
    digitsVal? (i.map digitChr) = some i := by
  induction i with
  | nil => rfl
  | cons d t ih =>
    have hd : d < 10 := h d (List.mem_cons_self d t)
    have ht : DigitsOk t := fun x hx => h x (List.mem_cons_of_mem d hx)
    simp only [List.map_cons, digitsVal?, digitVal?_digitChr d hd, ih ht]

theorem foldl_digits (ds : List Nat) :
    ∀ a, ds.foldl (fun a d => 10 * a + d) a =
      a * 10 ^ ds.length + Nat.ofDigits 10 ds.reverse := by
  induction ds with
  | nil => intro a; simp
  | cons d t ih =>
    intro a
    simp only [List.foldl_cons, List.reverse_cons, List.length_cons]
    rw [ih (10 * a + d), Nat.ofDigits_append]
    simp only [List.length_reverse, Nat.ofDigits_singleton]
    ring

/-- The parsing fold agrees with the little-endian digit valuation. -/
theorem natOfDigits_eq (ds : List Nat) :
    natOfDigits ds = Nat.ofDigits 10 ds.reverse := by
  unfold natOfDigits
  rw [foldl_digits]
  simp

theorem splitAllChar_append (c : Char) (a : List Char) (ha : ∀ x ∈ a, x ≠ c) :
    ∀ (b h : List Char) (t : List (List Char)), splitAllChar c b = h :: t →
      splitAllChar c (a ++ b) = (a ++ h) :: t := by
  induction a with
  | nil => intro b h t hb; simpa using hb
  | cons x xs ih =>
    intro b h t hb
    have hx : x ≠ c := ha x (List.mem_cons_self x xs)
    have hxs : ∀ y ∈ xs, y ≠ c := fun y hy => ha y (List.mem_cons_of_mem x hy)
    show splitAllChar c (x :: (xs ++ b)) = _
    unfold splitAllChar
    rw [if_neg hx, ih hxs b h t hb]
    rfl

theorem splitAllChar_of_not_mem (c : Char) (s : List Char) (h : ∀ x ∈ s, x ≠ c) :
    splitAllChar c s = [s] := by
  have := splitAllChar_append c s h [] [] [] rfl
  simpa using this

/-- Splitting a ++ sep :: b at sep when neither side contains it. -/
theorem splitAllChar_sep (c : Char) (a b : List Char)
    (ha : ∀ x ∈ a, x ≠ c) (hb : ∀ x ∈ b, x ≠ c) :
    splitAllChar c (a ++ c :: b) = [a, b] := by
  have h1 : splitAllChar c (c :: b) = [] :: [b] := by
    unfold splitAllChar
    rw [if_pos rfl, splitAllChar_of_not_mem c b hb]
  have := splitAllChar_append c a ha (c :: b) [] [b] h1
  simpa using this

/-- Value computed by the float embedding on a rendered numeral. -/
theorem pyFloat?_renderNum (i : List Nat) (f : Option (List Nat)) (hi : i ≠ [])
    (hdi : DigitsOk i) (hdf : FracOk f) :
    pyFloat? (renderNum i f) = some (numVal i f) := by
  cases f with
  | none =>
    have hnd : ∀ x ∈ i.map digitChr, x ≠ '.' := by
      intro x hx
      obtain ⟨d, _, rfl⟩ := List.mem_map.mp hx
      exact (digitChr_props d).2.2.2
    unfold renderNum pyFloat?
    rw [List.append_nil, splitAllChar_of_not_mem '.' (i.map digitChr) hnd]
    dsimp only
    rw [digitsVal?_map i hdi]
    dsimp only
    rw [if_neg (by simpa using hi)]
    unfold numVal
    rw [natOfDigits_eq]
    dsimp only
    norm_num
  | some fd =>
    have hnd : ∀ x ∈ i.map digitChr, x ≠ '.' := by
      intro x hx
      obtain ⟨d, _, rfl⟩ := List.mem_map.mp hx
      exact (digitChr_props d).2.2.2
    have hfd : ∀ x ∈ fd.map digitChr, x ≠ '.' := by
      intro x hx
      obtain ⟨d, _, rfl⟩ := List.mem_map.mp hx
      exact (digitChr_props d).2.2.2
    unfold renderNum pyFloat?
    rw [splitAllChar_sep '.' (i.map digitChr) (fd.map digitChr) hnd hfd]
    dsimp only
    rw [digitsVal?_map i hdi, digitsVal?_map fd hdf]
    dsimp only
    rw [if_neg (by simp [hi])]
    unfold numVal
    rw [natOfDigits_eq, natOfDigits_eq, List.length_map]

/-- Assembly of the parsed STAT frame for an arbitrary whitespace-free
payload around the slash. -/
theorem parse_response_stat (v : List Char) (hv : ∀ c ∈ v, isPySpace c = false) :
    parse_response ("OK+STAT:".toList ++ v) = Except.ok ("STAT".toList, v) := by
  have hmsg : ∀ c ∈ "OK+STAT:".toList ++ v, isPySpace c = false := by
    intro c hc
    rcases List.mem_append.mp hc with h | h
    · have h8 : c ∈ ['O', 'K', '+', 'S', 'T', 'A', 'T', ':'] := h
      simp only [List.mem_cons, List.not_mem_nil, or_false] at h8
      rcases h8 with rfl | rfl | rfl | rfl | rfl | rfl | rfl | rfl <;> decide
    · exact hv c h
  unfold parse_response
  rw [pyStrip_eq_self _ hmsg]
  rfl

/-- Acceptance characterisation of the ChargeConfig validator: shared by
the C8 conjuncts. -/
theorem mkChargeConfig_ok_iff
    (cmax cmin pd pi ti : ℤ) (ar : Bool) :
    (∃ c, mkChargeConfig cmax cmin pd pi ti ar = Except.ok c) ↔
      (20 ≤ cmin ∧ cmin < cmax ∧ cmax ≤ 100 ∧ (pd = 1 ∨ pd = 2)) := by
  constructor
  · rintro ⟨c, hc⟩
    unfold mkChargeConfig at hc
    split_ifs at hc with h1 h2 h3 h4
    all_goals cases hc
    all_goals exact ⟨by omega, by omega, by omega, h4⟩
  · rintro ⟨hmin, hlt, hmax, hpd⟩
    unfold mkChargeConfig
    rw [if_neg (by omega), if_neg (by omega), if_neg (by omega), if_neg (by omega)]
    exact ⟨_, rfl⟩

/-- C8: a ChargeConfig construction succeeds iff
20 ≤ charge_min < charge_max ≤ 100 and pd_mode is 1 or 2, and fails with a
validation error otherwise; in particular charge_max = charge_min + 1 is
accepted (within range) and charge_max = charge_min is rejected. -/
theorem c8_charge_config_validation :
    (∀ (cmax cmin pd pi ti : ℤ) (ar : Bool),
      (∃ c, mkChargeConfig cmax cmin pd pi ti ar = Except.ok c) ↔
        (20 ≤ cmin ∧ cmin < cmax ∧ cmax ≤ 100 ∧ (pd = 1 ∨ pd = 2))) ∧
    (∀ (cmax cmin pd pi ti : ℤ) (ar : Bool),
      ¬(20 ≤ cmin ∧ cmin < cmax ∧ cmax ≤ 100 ∧ (pd = 1 ∨ pd = 2)) →
        ∃ e, mkChargeConfig cmax cmin pd pi ti ar = Except.error e) ∧
    (∀ cmin : ℤ, 20 ≤ cmin → cmin + 1 ≤ 100 →
      ∃ c, mkChargeConfig (cmin + 1) cmin 2 3 30 true = Except.ok c) ∧
    (∀ (cmin pd pi ti : ℤ) (ar : Bool),
      ¬∃ c, mkChargeConfig cmin cmin pd pi ti ar = Except.ok c) := by
  refine ⟨mkChargeConfig_ok_iff, ?_, ?_, ?_⟩
  · intro cmax cmin pd pi ti ar h
    rcases hm : mkChargeConfig cmax cmin pd pi ti ar with e | c
    · exact ⟨e, rfl⟩
    · exact absurd ((mkChargeConfig_ok_iff cmax cmin pd pi ti ar).mp ⟨c, hm⟩) h
  · intro cmin h1 h2
    exact (mkChargeConfig_ok_iff (cmin + 1) cmin 2 3 30 true).mpr
      ⟨h1, by omega, h2, Or.inr rfl⟩
  · intro cmin pd pi ti ar h
    have := (mkChargeConfig_ok_iff cmin cmin pd pi ti ar).mp h
    omega

/-- C8 witness: the boundary cases at charge_min = 75 — max 76 accepted,
max = min = 75 rejected. -/
theorem c8_charge_config_validation_witness :
    (∃ c, mkChargeConfig 76 75 2 3 30 true = Except.ok c) ∧
    (¬∃ c, mkChargeConfig 75 75 2 3 30 true = Except.ok c) :=
  ⟨c8_charge_config_validation.2.2.1 75 (by norm_num) (by norm_num),
   c8_charge_config_validation.2.2.2 75 2 3 30 true⟩

/-- C2: for update_config(charge_max=90) from the default config the
change check fires and the persistence call is made, but it raises an
AttributeError instead of completing: engine.py passes pd_mode as the
fourth positional argument of save_state, whose fourth parameter is path,
and the body evaluates path.parent on that int. A path argument, as the
repository's own tests supply, would have written exactly the three state
keys. -/
theorem c2_persistence_call_raises :
    update_config cfgDefault (some 90) none none none =
      Except.ok (⟨90, 75, 2, 3, 30, true⟩,
        some (Except.error (PyError.attributeError "int object has no attribute parent"))) ∧
    save_state 90 75 30 (PyVal.int 2) =
      Except.error (PyError.attributeError "int object has no attribute parent") ∧
    (∀ p : String, save_state 90 75 30 (PyVal.fsPath p) =
      Except.ok [("charge_max", 90), ("charge_min", 75), ("telemetry_interval", 30)]) :=
  ⟨rfl, rfl, fun _ => rfl⟩

/-- C5: update_config does not preserve auto_reconnect — the rebuilt
ChargeConfig passes poll_interval through but omits auto_reconnect, which
silently resets to the dataclass default true. Starting from a config with
auto_reconnect disabled and poll_interval 7, updating charge_max to 90
keeps poll_interval but flips auto_reconnect to true. -/
theorem c5_auto_reconnect_reset :
    update_config cfgNoReconnect (some 90) none none none =
      Except.ok (⟨90, 75, 2, 7, 30, true⟩,
        some (Except.error (PyError.attributeError "int object has no attribute parent"))) ∧
    cfgNoReconnect.auto_reconnect = false ∧
    (⟨90, 75, 2, 7, 30, true⟩ : ChargeConfig).auto_reconnect = true ∧
    (⟨90, 75, 2, 7, 30, true⟩ : ChargeConfig).poll_interval = cfgNoReconnect.poll_interval :=
  ⟨rfl, rfl, rfl, rfl⟩

/-- C3 counterexample: after the disconnect handler runs on an established
session, telemetry and device_info are not null — the handler clears only
the charging flag and the override and never assigns the telemetry or
device-info fields. -/
theorem c3_disconnect_counterexample :
    (handle_ble_state stConnected ConnState.DISCONNECTED).telemetry = some ⟨9, 1⟩ ∧
    (handle_ble_state stConnected ConnState.DISCONNECTED).deviceInfo = some devInfoEx ∧
    (handle_ble_state stConnected ConnState.DISCONNECTED).telemetry ≠ none ∧
    (handle_ble_state stConnected ConnState.DISCONNECTED).deviceInfo ≠ none := by
  decide

/-- C3 amended: on a spontaneous transport disconnect (engine not
stopped), the handler cancels both polling tasks and clears is_charging
and override, while telemetry and device_info keep their previous
values. -/
theorem c3_disconnect_amended :
    ∀ st : EngineState, st.stopped = false →
      (handle_ble_state st ConnState.DISCONNECTED).charging = false ∧
      (handle_ble_state st ConnState.DISCONNECTED).override = none ∧
      (handle_ble_state st ConnState.DISCONNECTED).sysfsPolling = false ∧
      (handle_ble_state st ConnState.DISCONNECTED).keepalivePolling = false ∧
      (handle_ble_state st ConnState.DISCONNECTED).telemetry = st.telemetry ∧
      (handle_ble_state st ConnState.DISCONNECTED).deviceInfo = st.deviceInfo := by
  intro st h
  unfold handle_ble_state
  rw [if_neg (by simp [h]), if_pos rfl]
  split_ifs <;> simp

/-- C3 amended witness: the established-session state. -/
theorem c3_disconnect_amended_witness :
    (handle_ble_state stConnected ConnState.DISCONNECTED).charging = false ∧
    (handle_ble_state stConnected ConnState.DISCONNECTED).override = none ∧
    (handle_ble_state stConnected ConnState.DISCONNECTED).sysfsPolling = false ∧
    (handle_ble_state stConnected ConnState.DISCONNECTED).keepalivePolling = false ∧
    (handle_ble_state stConnected ConnState.DISCONNECTED).telemetry = stConnected.telemetry ∧
    (handle_ble_state stConnected ConnState.DISCONNECTED).deviceInfo = stConnected.deviceInfo :=
  c3_disconnect_amended stConnected rfl

/-- C6: a malformed STAT response during the keepalive poll is fatal to
the loop — parse_telemetry raises a ParseError that neither the inner
except clause (TimeoutError only) nor the outer handlers (CancelledError,
ConnectionError) catch, so the loop terminates before its next poll;
timeouts, by contrast, are swallowed and the loop keeps running. -/
theorem c6_keepalive_parse_error_fatal :
    keepalive_run st0 [some garbageStatFrame, some goodStatFrame] =
      Except.error (PyError.parseError "Bad STAT payload") ∧
    keepalive_run st0 [none, none] = Except.ok st0 := by
  exact ⟨rfl, rfl⟩

/-- C9: charge-limit enforcement with an override latched is a no-op — the
guard returns before any branch runs, so no BLE command is issued and the
whole engine state (phase, charging flag, exchange log) is unchanged. -/
theorem c9_override_suspends_enforcement :
    ∀ (st : EngineState) (percent : ℤ) (dev : DevOracle),
      st.override.isSome = true →
        enforce_limit st percent dev = (Except.ok (), st, dev) ∧
        (enforce_limit st percent dev).2.1.phase = st.phase ∧
        (enforce_limit st percent dev).2.1.charging = st.charging ∧
        (enforce_limit st percent dev).2.1.cmdLog = st.cmdLog ∧
        (enforce_limit st percent dev).2.2 = dev := by
  intro st p dev h
  have he : enforce_limit st p dev = (Except.ok (), st, dev) := by
    unfold enforce_limit
    rw [if_pos h]
  exact ⟨he, by rw [he], by rw [he], by rw [he], by rw [he]⟩

/-- Assembled parse of a full STAT frame from payload halves that the
float embedding accepts. -/
theorem parse_telemetry_frame (a v : List Char) (qa qv : ℚ)
    (hs : ∀ c ∈ a ++ '/' :: v, isPySpace c = false)
    (ha : ∀ x ∈ a, x ≠ '/') (hv : ∀ x ∈ v, x ≠ '/')
    (hqa : pyFloat? a = some qa) (hqv : pyFloat? v = some qv) :
    parse_telemetry ("OK+STAT:".toList ++ a ++ '/' :: v) = Except.ok ⟨qv, qa⟩ := by
  rw [List.append_assoc]
  unfold parse_telemetry
  rw [parse_response_stat _ hs]
  dsimp only
  rw [if_pos rfl, splitAllChar_sep '/' a v ha hv]
  dsimp only
  rw [hqa, hqv]

theorem pyFloat?_base_amps : pyFloat? ['0', '.', '0', '0'] = some 0 := by
  show some (((natOfDigits [0] : ℕ) : ℚ) +
    ((natOfDigits [0, 0] : ℕ) : ℚ) / (10 : ℚ) ^ (['0', '0'].length)) = some 0
  norm_num [natOfDigits]

theorem pyFloat?_base_volts : pyFloat? ['5', '.', '0', '0'] = some 5 := by
  show some (((natOfDigits [5] : ℕ) : ℚ) +
    ((natOfDigits [0, 0] : ℕ) : ℚ) / (10 : ℚ) ^ (['0', '0'].length)) = some 5
  norm_num [natOfDigits]

theorem pyFloat?_good_amps : pyFloat? ['3', '.', '0', '0'] = some 3 := by
  show some (((natOfDigits [3] : ℕ) : ℚ) +
    ((natOfDigits [0, 0] : ℕ) : ℚ) / (10 : ℚ) ^ (['0', '0'].length)) = some 3
  norm_num [natOfDigits]

theorem pyFloat?_good_volts : pyFloat? ['1', '5', '.', '0', '0'] = some 15 := by
  show some (((natOfDigits [1, 5] : ℕ) : ℚ) +
    ((natOfDigits [0, 0] : ℕ) : ℚ) / (10 : ℚ) ^ (['0', '0'].length)) = some 15
  norm_num [natOfDigits]

/-- The base-voltage STAT frame parses to 0 A and 5 V. -/
theorem parse_telemetry_base : parse_telemetry baseStatFrame = Except.ok ⟨5, 0⟩ := by
  have h : baseStatFrame =
      "OK+STAT:".toList ++ ['0', '.', '0', '0'] ++ '/' :: ['5', '.', '0', '0'] := by decide
  rw [h]
  exact parse_telemetry_frame _ _ 0 5 (by decide) (by decide) (by decide)
    pyFloat?_base_amps pyFloat?_base_volts

/-- The PD-confirmed STAT frame parses to 3 A and 15 V. -/
theorem parse_telemetry_good : parse_telemetry goodStatFrame = Except.ok ⟨15, 3⟩ := by
  have h : goodStatFrame =
      "OK+STAT:".toList ++ ['3', '.', '0', '0'] ++ '/' :: ['1', '5', '.', '0', '0'] := by
    decide
  rw [h]
  exact parse_telemetry_frame _ _ 3 15 (by decide) (by decide) (by decide)
    pyFloat?_good_amps pyFloat?_good_volts

theorem pd_min_volts_lt : ¬ PD_MIN_VOLTS < (5 : ℚ) := by
  norm_num [PD_MIN_VOLTS]

theorem pd_min_volts_lt_good : PD_MIN_VOLTS < (15 : ℚ) := by
  norm_num [PD_MIN_VOLTS]

/-- A _power_on attempt over a failed-attempt oracle slice completes its
handshake, fails confirmation, and leaves exactly the trailing oracle. -/
theorem power_on_attempt_fail (a : DevOracle) (ha : failedAttemptOracle a) :
    ∀ (st : EngineState) (rest : DevOracle),
      ∃ st', power_on_attempt st (a ++ rest) = (Except.ok false, st', rest) := by
  obtain ⟨offR, onR, ispd, pdmoR, stats, rfl, hoff, hon, hlen, hstats⟩ := ha
  intro st rest
  have tail : ∀ st4 : EngineState,
      ∃ st', power_on_attempt_rest st4 (some pdmoR :: (stats ++ rest)) =
        (Except.ok false, st', rest) := by
    intro st4
    simp only [power_on_attempt_rest, engSend]
    rw [show PD_CONFIRM_POLLS = stats.length from hlen.symm]
    obtain ⟨st', h1, _⟩ := confirm_pd_fail stats hstats
      { st4 with cmdLog := st4.cmdLog ++
          [(if st4.config.pd_mode = 2 then CMD_PD_MODE_2 else CMD_PD_MODE_1, pdmoR)] } rest
    exact ⟨st', h1⟩
  cases ispd with
  | none =>
    simp only [List.cons_append, power_on_attempt, power_off, engSend, hoff, hon]
    exact tail _
  | some g =>
    simp only [List.cons_append, power_on_attempt, power_off, engSend, hoff, hon]
    exact tail _

/-- Three failed attempts exhaust the retry loop of _power_on. -/
theorem power_on_three_failures (st : EngineState) (a1 a2 a3 : DevOracle)
    (h1 : failedAttemptOracle a1) (h2 : failedAttemptOracle a2)
    (h3 : failedAttemptOracle a3) :
    (power_on st (a1 ++ a2 ++ a3)).1 =
      Except.error (PyError.connectionError "PD negotiation failed after 3 attempts") := by
  obtain ⟨s1, e1⟩ := power_on_attempt_fail a1 h1 st (a2 ++ a3)
  obtain ⟨s2, e2⟩ := power_on_attempt_fail a2 h2 s1 a3
  obtain ⟨s3, e3⟩ := power_on_attempt_fail a3 h3 s2 []
  rw [List.append_nil] at e3
  show (power_on_go 3 st (a1 ++ a2 ++ a3)).1 = _
  rw [List.append_assoc]
  unfold power_on_go
  rw [e1]
  unfold power_on_go
  rw [e2]
  unfold power_on_go
  rw [e3]
  rfl

/-- C1: over well-formed STAT responses the PD confirmation window of up
to ten one-per-second polls latches success iff some reading in it has
volts strictly above PD_MIN_VOLTS = 5.5; the base-voltage reading
0.00/5.00 parses to 5 V and is never treated as PD-active (a window of
only such readings returns false); and when the handshake succeeds but no
reading in any of the three attempts exceeds the threshold, _power_on
fails with the PD-negotiation ConnectionError. -/
theorem c1_pd_confirmation :
    (∀ (st : EngineState) (resps : DevOracle), pdWF resps →
      (((confirm_pd_active PD_CONFIRM_POLLS st resps).1 = Except.ok true) ↔
        ∃ o ∈ resps.take PD_CONFIRM_POLLS, pdGood o)) ∧
    (parse_telemetry baseStatFrame = Except.ok ⟨5, 0⟩ ∧
      ¬ PD_MIN_VOLTS < (5 : ℚ) ∧
      ∀ st : EngineState,
        (confirm_pd_active PD_CONFIRM_POLLS st
          (List.replicate PD_CONFIRM_POLLS (some baseStatFrame))).1 =
          Except.ok false) ∧
    (∀ (st : EngineState) (a1 a2 a3 : DevOracle),
      failedAttemptOracle a1 → failedAttemptOracle a2 → failedAttemptOracle a3 →
      (power_on st (a1 ++ a2 ++ a3)).1 =
        Except.error (PyError.connectionError "PD negotiation failed after 3 attempts")) := by
  refine ⟨fun st resps h => confirm_pd_iff PD_CONFIRM_POLLS st resps h,
    ⟨parse_telemetry_base, pd_min_volts_lt, ?_⟩,
    fun st a1 a2 a3 h1 h2 h3 => power_on_three_failures st a1 a2 a3 h1 h2 h3⟩
  intro st
  have hstats : ∀ o ∈ List.replicate PD_CONFIRM_POLLS (some baseStatFrame), pdFailEntry o := by
    intro o ho
    rw [List.eq_of_mem_replicate ho]
    exact Or.inr ⟨baseStatFrame, ⟨5, 0⟩, rfl, parse_telemetry_base, pd_min_volts_lt⟩
  obtain ⟨st', h1, _⟩ := confirm_pd_fail
    (List.replicate PD_CONFIRM_POLLS (some baseStatFrame)) hstats st []
  rw [List.append_nil, List.length_replicate] at h1
  rw [h1]

/-- Concrete failed-attempt oracle: good handshake, ten base-voltage
readings. -/
theorem failAttemptOracle_spec : failedAttemptOracle failAttemptOracle := by
  refine ⟨"OK+PIO2:0".toList, "OK+PIO2:1".toList, some ("OK+ISPD:1".toList),
    "OK+PDMO:2".toList, List.replicate PD_CONFIRM_POLLS (some baseStatFrame),
    rfl, by decide, by decide, by simp, ?_⟩
  intro o ho
  rw [List.eq_of_mem_replicate ho]
  exact Or.inr ⟨baseStatFrame, ⟨5, 0⟩, rfl, parse_telemetry_base, pd_min_volts_lt⟩

/-- C1 witness: a window with one 15 V reading latches; the all-base
window does not; three all-base attempts end in the PD-negotiation
ConnectionError. -/
theorem c1_pd_confirmation_witness :
    ((confirm_pd_active PD_CONFIRM_POLLS st0 [some goodStatFrame]).1 = Except.ok true) ∧
    ((confirm_pd_active PD_CONFIRM_POLLS st0
        (List.replicate PD_CONFIRM_POLLS (some baseStatFrame))).1 = Except.ok false) ∧
    ((power_on st0 (failAttemptOracle ++ failAttemptOracle ++ failAttemptOracle)).1 =
      Except.error (PyError.connectionError "PD negotiation failed after 3 attempts")) := by
  refine ⟨?_, c1_pd_confirmation.2.1.2.2 st0,
    c1_pd_confirmation.2.2 st0 failAttemptOracle failAttemptOracle failAttemptOracle
      failAttemptOracle_spec failAttemptOracle_spec failAttemptOracle_spec⟩
  refine (c1_pd_confirmation.1 st0 [some goodStatFrame] ?_).mpr ?_
  · intro f hf
    rw [List.mem_singleton] at hf
    cases hf
    exact ⟨⟨15, 3⟩, parse_telemetry_good⟩
  · exact ⟨some goodStatFrame, by decide,
      goodStatFrame, ⟨15, 3⟩, rfl, parse_telemetry_good, pd_min_volts_lt_good⟩

/-- The most recent relay exchange of a log ending in a power-off,
power-on pair followed by only non-relay exchanges is the power-on. -/
theorem lastPower_entry (base rest : List (List Char × List Char)) (offR onR : List Char)
    (hrest : ∀ e ∈ rest, isPowerCmd e.1 = false) :
    lastPowerExchange (base ++ (CMD_POWER_OFF, offR) :: (CMD_POWER_ON, onR) :: rest) =
      some (CMD_POWER_ON, onR) := by
  have hfilter : List.filter (fun e => isPowerCmd e.1)
      ((CMD_POWER_OFF, offR) :: (CMD_POWER_ON, onR) :: rest) =
      [(CMD_POWER_OFF, offR), (CMD_POWER_ON, onR)] := by
    show (CMD_POWER_OFF, offR) :: (CMD_POWER_ON, onR) ::
        List.filter (fun e => isPowerCmd e.1) rest = _
    rw [List.filter_eq_nil_iff.mpr (fun e he => by simp [hrest e he])]
  unfold lastPowerExchange
  rw [List.filter_append, hfilter, List.getLast?_append]
  rfl

/-- Log and charging-flag bookkeeping of the confirmation window: only
STAT exchanges are appended and the charging flag is untouched. -/
theorem confirm_pd_log : ∀ (fuel : Nat) (st : EngineState) (dev : DevOracle)
    (r : Except PyError Bool) (st' : EngineState) (dev' : DevOracle),
    confirm_pd_active fuel st dev = (r, st', dev') →
    ∃ ext, st'.cmdLog = st.cmdLog ++ ext ∧ (∀ e ∈ ext, e.1 = CMD_STAT) ∧
      st'.charging = st.charging := by
  intro fuel
  induction fuel with
  | zero =>
    intro st dev r st' dev' h
    simp only [confirm_pd_active, Prod.mk.injEq] at h
    obtain ⟨-, rfl, -⟩ := h
    exact ⟨[], by simp, by simp, rfl⟩
  | succ n ih =>
    intro st dev r st' dev' h
    cases dev with
    | nil => exact ih st [] r st' dev' h
    | cons o rest =>
      cases o with
      | none => exact ih st rest r st' dev' h
      | some f =>
        simp only [confirm_pd_active, engSend] at h
        cases ht : parse_telemetry f with
        | error e =>
          simp only [ht, Prod.mk.injEq] at h
          obtain ⟨-, rfl, -⟩ := h
          exact ⟨[(CMD_STAT, f)], rfl, by simp, rfl⟩
        | ok t =>
          simp only [ht] at h
          by_cases hv : PD_MIN_VOLTS < t.volts
          · rw [if_pos hv] at h
            simp only [Prod.mk.injEq] at h
            obtain ⟨-, rfl, -⟩ := h
            exact ⟨[(CMD_STAT, f)], rfl, by simp, rfl⟩
          · rw [if_neg hv] at h
            obtain ⟨ext, he, hall, hch⟩ := ih _ rest r st' dev' h
            refine ⟨(CMD_STAT, f) :: ext, ?_, ?_, hch⟩
            · rw [he]
              simp
            · intro e he'
              rcases List.mem_cons.mp he' with rfl | he'
              · rfl
              · exact hall e he'

/-- Inversion of a successful guarded power-off. -/
theorem power_off_ok_inv (st : EngineState) (dev : DevOracle)
    (st1 : EngineState) (dev1 : DevOracle)
    (h : power_off st dev = (Except.ok (), st1, dev1)) :
    ∃ r, dev = some r :: dev1 ∧ parse_power_state r = Except.ok false ∧
      st1 = { st with charging := false,
                      cmdLog := st.cmdLog ++ [(CMD_POWER_OFF, r)] } := by
  rcases dev with _ | ⟨o, rest⟩
  · simp [power_off, engSend] at h
  · cases o with
    | none => simp [power_off, engSend] at h
    | some f =>
      simp only [power_off, engSend] at h
      cases hp : parse_power_state f with
      | error e =>
        simp only [hp] at h
        simp at h
      | ok b =>
        simp only [hp] at h
        cases b with
        | true => simp at h
        | false =>
          simp only [Prod.mk.injEq] at h
          obtain ⟨-, rfl, rfl⟩ := h
          exact ⟨f, rfl, hp, rfl⟩

/-- Inversion of a confirming attempt tail: charging is untouched and the
appended exchanges are the PD-mode command and STAT polls only. -/
theorem power_on_attempt_rest_ok_inv (st : EngineState) (dev : DevOracle)
    (st' : EngineState) (dev' : DevOracle)
    (h : power_on_attempt_rest st dev = (Except.ok true, st', dev')) :
    st'.charging = st.charging ∧
    ∃ pr ext, st'.cmdLog = st.cmdLog ++
        ((if st.config.pd_mode = 2 then CMD_PD_MODE_2 else CMD_PD_MODE_1), pr) :: ext ∧
      ∀ e ∈ ext, e.1 = CMD_STAT := by
  unfold power_on_attempt_rest at h
  rcases dev with _ | ⟨o, d⟩
  · simp [engSend] at h
  · cases o with
    | none => simp [engSend] at h
    | some pr =>
      simp only [engSend] at h
      obtain ⟨ext, he, hall, hch⟩ := confirm_pd_log PD_CONFIRM_POLLS _ d _ st' dev' h
      refine ⟨hch, pr, ext, ?_, hall⟩
      rw [he]
      simp

/-- Inversion of a successful power-on attempt: the charging flag is set
and the most recent relay exchange is the power-on with its confirming
response. -/
theorem power_on_attempt_ok_inv (st : EngineState) (dev : DevOracle)
    (st' : EngineState) (dev' : DevOracle)
    (h : power_on_attempt st dev = (Except.ok true, st', dev')) :
    st'.charging = true ∧
    ∃ r, lastPowerExchange st'.cmdLog = some (CMD_POWER_ON, r) ∧
      parse_power_state r = Except.ok true := by
  unfold power_on_attempt at h
  rcases hpo : power_off st dev with ⟨e1, st1, dev1⟩
  rw [hpo] at h
  cases e1 with
  | error e => simp at h
  | ok u =>
    obtain ⟨r0, hdev, hpr0, hst1⟩ := power_off_ok_inv st dev st1 dev1 hpo
    rcases dev1 with _ | ⟨o1, d2⟩
    · simp [engSend] at h
    · cases o1 with
      | none => simp [engSend] at h
      | some f1 =>
        simp only [engSend] at h
        cases hp1 : parse_power_state f1 with
        | error e =>
          simp only [hp1] at h
          simp at h
        | ok b =>
          simp only [hp1] at h
          cases b with
          | false => simp at h
          | true =>
            subst hst1
            have hpdmo : ∀ (c : ChargeConfig) (pr : List Char),
                isPowerCmd ((if c.pd_mode = 2 then CMD_PD_MODE_2 else CMD_PD_MODE_1), pr).1
                  = false := by
              intro c pr
              split_ifs <;> rfl
            rcases d2 with _ | ⟨o2, d3⟩
            · simp only [engSend] at h
              obtain ⟨hch, pr, ext, hlog, hall⟩ := power_on_attempt_rest_ok_inv _ _ _ _ h
              refine ⟨hch, f1, ?_, hp1⟩
              rw [hlog]
              simp only [List.append_assoc, List.singleton_append, List.cons_append,
                List.nil_append]
              refine lastPower_entry st.cmdLog _ r0 f1 ?_
              intro e he
              rcases List.mem_cons.mp he with rfl | he
              · exact hpdmo _ pr
              · rw [hall e he]
                decide
            · cases o2 with
              | none =>
                simp only [engSend] at h
                obtain ⟨hch, pr, ext, hlog, hall⟩ := power_on_attempt_rest_ok_inv _ _ _ _ h
                refine ⟨hch, f1, ?_, hp1⟩
                rw [hlog]
                simp only [List.append_assoc, List.singleton_append, List.cons_append,
                  List.nil_append]
                refine lastPower_entry st.cmdLog _ r0 f1 ?_
                intro e he
                rcases List.mem_cons.mp he with rfl | he
                · exact hpdmo _ pr
                · rw [hall e he]
                  decide
              | some g =>
                simp only [engSend] at h
                obtain ⟨hch, pr, ext, hlog, hall⟩ := power_on_attempt_rest_ok_inv _ _ _ _ h
                refine ⟨hch, f1, ?_, hp1⟩
                rw [hlog]
                simp only [List.append_assoc, List.singleton_append, List.cons_append,
                  List.nil_append]
                refine lastPower_entry st.cmdLog _ r0 f1 ?_
                intro e he
                rcases List.mem_cons.mp he with rfl | he
                · rfl
                · rcases List.mem_cons.mp he with rfl | he
                  · exact hpdmo _ pr
                  · rw [hall e he]
                    decide

/-- Inversion of the attempt loop: a success inherits the invariant of
its final attempt. -/
theorem power_on_go_ok_inv : ∀ (n : Nat) (st : EngineState) (dev : DevOracle)
    (st' : EngineState) (dev' : DevOracle),
    power_on_go n st dev = (Except.ok (), st', dev') →
    st'.charging = true ∧
    ∃ r, lastPowerExchange st'.cmdLog = some (CMD_POWER_ON, r) ∧
      parse_power_state r = Except.ok true := by
  intro n
  induction n with
  | zero =>
    intro st dev st' dev' h
    simp [power_on_go] at h
  | succ k ih =>
    intro st dev st' dev' h
    unfold power_on_go at h
    rcases ha : power_on_attempt st dev with ⟨e, st1, dev1⟩
    rw [ha] at h
    cases e with
    | error e => simp at h
    | ok b =>
      cases b with
      | true =>
        simp only [Prod.mk.injEq] at h
        obtain ⟨-, rfl, -⟩ := h
        exact power_on_attempt_ok_inv st dev st1 dev1 ha
      | false => exact ih st1 dev1 st' dev' h

/-- One fully successful attempt on the concrete oracle. -/
theorem power_on_attempt_ok_run :
    power_on_attempt st0 okAttemptOracle =
      (Except.ok true,
       { st0 with charging := true, telemetry := some ⟨15, 3⟩,
                  cmdLog := [(CMD_POWER_OFF, "OK+PIO2:0".toList),
                    (CMD_POWER_ON, "OK+PIO2:1".toList), (CMD_ISPD, "OK+ISPD:1".toList),
                    (CMD_PD_MODE_2, "OK+PDMO:2".toList), (CMD_STAT, goodStatFrame)] },
       []) := by
  have step : power_on_attempt st0 okAttemptOracle =
      confirm_pd_active PD_CONFIRM_POLLS
        { st0 with charging := true,
                   cmdLog := [(CMD_POWER_OFF, "OK+PIO2:0".toList),
                     (CMD_POWER_ON, "OK+PIO2:1".toList), (CMD_ISPD, "OK+ISPD:1".toList),
                     (CMD_PD_MODE_2, "OK+PDMO:2".toList)] } [some goodStatFrame] := rfl
  rw [step, show PD_CONFIRM_POLLS = 9 + 1 from rfl]
  simp only [confirm_pd_active, engSend, parse_telemetry_good]
  rw [if_pos pd_min_volts_lt_good]
  simp

/-- The happy-path start on the concrete oracle reaches CHARGING with the
five-exchange log ending in the confirming STAT poll. -/
theorem start_charging_run_ok :
    start_charging_run st0 okAttemptOracle =
      (Except.ok (),
       { st0 with phase := Phase.CHARGING, charging := true,
                  telemetry := some ⟨15, 3⟩, sysfsPolling := true,
                  keepalivePolling := true,
                  cmdLog := [(CMD_POWER_OFF, "OK+PIO2:0".toList),
                    (CMD_POWER_ON, "OK+PIO2:1".toList), (CMD_ISPD, "OK+ISPD:1".toList),
                    (CMD_PD_MODE_2, "OK+PDMO:2".toList), (CMD_STAT, goodStatFrame)] },
       []) := by
  unfold start_charging_run power_on power_on_go
  rw [power_on_attempt_ok_run]

/-- C4 counterexample: a successful happy-path start reaches CHARGING
while the most recent device command accepted by the engine is the
confirming STAT? poll, not POWER_ON — the PD-on sequence necessarily ends
with ISPD?, the PD-mode command and the latching STAT? after the
power-on exchange. -/
theorem c4_charging_counterexample :
    (start_charging_run st0 okAttemptOracle).1 = Except.ok () ∧
    (start_charging_run st0 okAttemptOracle).2.1.phase = Phase.CHARGING ∧
    (start_charging_run st0 okAttemptOracle).2.1.charging = true ∧
    ((start_charging_run st0 okAttemptOracle).2.1.cmdLog.map Prod.fst) =
      [CMD_POWER_OFF, CMD_POWER_ON, CMD_ISPD, CMD_PD_MODE_2, CMD_STAT] ∧
    ((start_charging_run st0 okAttemptOracle).2.1.cmdLog.getLast?.map Prod.fst) =
      some CMD_STAT ∧
    CMD_STAT ≠ CMD_POWER_ON := by
  rw [start_charging_run_ok]
  exact ⟨rfl, rfl, rfl, rfl, rfl, by decide⟩

/-- C4 amended: whenever the engine reaches CHARGING through the PD-on
sequence, is_charging is true and the most recent accepted power-relay
command (PIO20/PIO21) is POWER_ON with a response reporting on; the most
recent accepted command overall is the STAT? poll that confirmed PD. -/
theorem c4_charging_amended :
    ∀ (st : EngineState) (dev : DevOracle),
      (start_charging_run st dev).1 = Except.ok () →
      (start_charging_run st dev).2.1.phase = Phase.CHARGING ∧
      (start_charging_run st dev).2.1.charging = true ∧
      ∃ r, lastPowerExchange (start_charging_run st dev).2.1.cmdLog =
          some (CMD_POWER_ON, r) ∧ parse_power_state r = Except.ok true := by
  intro st dev h
  rcases hrun : power_on st dev with ⟨e, st', dev'⟩
  cases e with
  | error e =>
    have hs : start_charging_run st dev = (Except.error e, st', dev') := by
      unfold start_charging_run
      rw [hrun]
    rw [hs] at h
    simp at h
  | ok u =>
    have hs : start_charging_run st dev =
        (Except.ok (),
         { st' with phase := Phase.CHARGING, sysfsPolling := true,
                    keepalivePolling := true },
         dev') := by
      unfold start_charging_run
      rw [hrun]
    obtain ⟨hch, r, hlast, hr⟩ := power_on_go_ok_inv 3 st dev st' dev' hrun
    rw [hs]
    exact ⟨rfl, hch, r, hlast, hr⟩

/-- C4 amended witness: the concrete happy-path run. -/
theorem c4_charging_amended_witness :
    (start_charging_run st0 okAttemptOracle).2.1.phase = Phase.CHARGING ∧
    (start_charging_run st0 okAttemptOracle).2.1.charging = true ∧
    ∃ r, lastPowerExchange (start_charging_run st0 okAttemptOracle).2.1.cmdLog =
        some (CMD_POWER_ON, r) ∧ parse_power_state r = Except.ok true :=
  c4_charging_amended st0 okAttemptOracle (by rw [start_charging_run_ok])

/-- C10: for all decimal numerals A and V of the device grammar,
parse_telemetry applied to OK+STAT: followed by A, a slash and V returns a
Telemetry whose amps equal the value of A and whose volts equal the value
of V — the payload is consumed amps first, volts second. -/
theorem c10_parse_telemetry_amps_first :
    ∀ (ia : List Nat) (fa : Option (List Nat)) (iv : List Nat) (fv : Option (List Nat)),
      ia ≠ [] → iv ≠ [] → DigitsOk ia → FracOk fa → DigitsOk iv → FracOk fv →
      parse_telemetry ("OK+STAT:".toList ++ renderNum ia fa ++ '/' :: renderNum iv fv) =
        Except.ok ⟨numVal iv fv, numVal ia fa⟩ := by
  intro ia fa iv fv hia hiv hda hfa hdv hfv
  have hA := renderNum_chars ia fa
  have hV := renderNum_chars iv fv
  have hvsp : ∀ c ∈ renderNum ia fa ++ '/' :: renderNum iv fv, isPySpace c = false := by
    intro c hc
    rcases List.mem_append.mp hc with h | h
    · exact (hA c h).1
    · rcases List.mem_cons.mp h with rfl | h
      · decide
      · exact (hV c h).1
  have hsl : splitAllChar '/' (renderNum ia fa ++ '/' :: renderNum iv fv) =
      [renderNum ia fa, renderNum iv fv] :=
    splitAllChar_sep '/' _ _ (fun x hx => (hA x hx).2.1) (fun x hx => (hV x hx).2.1)
  rw [List.append_assoc]
  unfold parse_telemetry
  rw [parse_response_stat _ hvsp]
  dsimp only
  rw [if_pos rfl, hsl]
  dsimp only
  rw [pyFloat?_renderNum ia fa hia hda hfa, pyFloat?_renderNum iv fv hiv hdv hfv]

/-- C10 witness: the frame OK+STAT:3.00/15.00 parses to 3 amps and
15 volts. -/
theorem c10_parse_telemetry_amps_first_witness :
    parse_telemetry ("OK+STAT:".toList ++ renderNum [3] (some [0, 0]) ++
        '/' :: renderNum [1, 5] (some [0, 0])) =
      Except.ok ⟨numVal [1, 5] (some [0, 0]), numVal [3] (some [0, 0])⟩ :=
  c10_parse_telemetry_amps_first [3] (some [0, 0]) [1, 5] (some [0, 0])
    (by decide) (by decide)
    (by intro d hd; simp at hd; omega)
    (by intro d hd; simp at hd; omega)
    (by intro d hd; simp at hd; omega)
    (by intro d hd; simp at hd; omega)

/-- Accumulator shift for the send_command scanning loop. -/
theorem send_command_go_acc (command : List Char) :
    ∀ (queue acc : List (List Char)),
      send_command_go command queue acc =
        ((send_command command queue).1, (send_command command queue).2.1,
         acc ++ (send_command command queue).2.2) := by
  intro queue
  induction queue with
  | nil => intro acc; simp [send_command, send_command_go]
  | cons f rest ih =>
    intro acc
    cases h : frame_matches command f with
    | true => simp [send_command, send_command_go, h]
    | false =>
      simp only [send_command, send_command_go, h, Bool.false_eq_true, ite_false,
        List.nil_append]
      rw [ih (acc ++ [f]), ih [f]]
      simp

/-- Characterisation of one send_command exchange over the pending queue:
shared helper for the C7 conjuncts. When some queued frame matches, the
first such frame is returned, everything before it (and only that) is
dispatched, and the queue splits as dispatched ++ match :: remainder;
when none matches, the call times out after dispatching the whole
queue. -/
theorem send_command_characterisation (command : List Char)
    (queue : List (List Char)) :
    (∀ f, queue.find? (frame_matches command) = some f →
      send_command command queue =
        (Except.ok f, (queue.dropWhile (fun g => !frame_matches command g)).tail,
         queue.takeWhile (fun g => !frame_matches command g)) ∧
      queue = queue.takeWhile (fun g => !frame_matches command g) ++
        f :: (queue.dropWhile (fun g => !frame_matches command g)).tail) ∧
    (queue.find? (frame_matches command) = none →
      send_command command queue = (Except.error PyError.timeoutError, [], queue)) := by
  induction queue with
  | nil =>
    refine ⟨?_, ?_⟩
    · intro f hf
      cases hf
    · intro _
      rfl
  | cons f0 rest ih =>
    cases h : frame_matches command f0 with
    | true =>
      have hpos : (fun g => !frame_matches command g) f0 = false := by simp [h]
      constructor
      · intro f hf
        rw [List.find?_cons_of_pos _ h] at hf
        cases hf
        rw [List.dropWhile_cons_of_neg (by simp [h]),
            List.takeWhile_cons_of_neg (by simp [h])]
        exact ⟨by simp [send_command, send_command_go, h], by simp⟩
      · intro hf
        rw [List.find?_cons_of_pos _ h] at hf
        cases hf
    | false =>
      have hneg : ¬ frame_matches command f0 = true := by simp [h]
      have hstep : send_command command (f0 :: rest) =
          ((send_command command rest).1, (send_command command rest).2.1,
           f0 :: (send_command command rest).2.2) := by
        show send_command_go command (f0 :: rest) [] = _
        simp only [send_command_go, h, Bool.false_eq_true, ite_false, List.nil_append]
        rw [send_command_go_acc command rest [f0]]
        rfl
      constructor
      · intro f hf
        rw [List.find?_cons_of_neg _ hneg] at hf
        obtain ⟨e1, e2⟩ := ih.1 f hf
        rw [List.dropWhile_cons_of_pos (by simp [h]),
            List.takeWhile_cons_of_pos (by simp [h])]
        constructor
        · rw [hstep, e1]
        · rw [List.cons_append]
          exact congrArg (f0 :: ·) e2
      · intro hf
        rw [List.find?_cons_of_neg _ hneg] at hf
        rw [hstep, ih.2 hf]

/-- C7: send_command returns the first queued frame starting with OK+
whose key equals the expected key of the command (the command with the
AT+ marker and trailing question marks stripped, and the final digit
stripped for the PIO2x and PDMOx families); every earlier frame is
dispatched to the unsolicited callbacks, the queue splits as
dispatched frames, the match, then the untouched remainder (nothing is
re-queued), and with no matching frame the call fails with a timeout. -/
theorem c7_send_command_matching :
    (∀ (command : List Char) (queue : List (List Char)),
      (∀ f, queue.find? (frame_matches command) = some f →
        send_command command queue =
          (Except.ok f, (queue.dropWhile (fun g => !frame_matches command g)).tail,
           queue.takeWhile (fun g => !frame_matches command g)) ∧
        queue = queue.takeWhile (fun g => !frame_matches command g) ++
          f :: (queue.dropWhile (fun g => !frame_matches command g)).tail) ∧
      (queue.find? (frame_matches command) = none →
        send_command command queue = (Except.error PyError.timeoutError, [], queue))) ∧
    (∀ f command, frame_matches command f = true ↔
      (("OK+".toList).isPrefixOf f = true ∧
        response_key f = expected_response_key command)) ∧
    expected_response_key CMD_STAT = "STAT".toList ∧
    expected_response_key CMD_ISPD = "ISPD".toList ∧
    expected_response_key CMD_POWER_OFF = "PIO2".toList ∧
    expected_response_key CMD_POWER_ON = "PIO2".toList ∧
    expected_response_key CMD_PD_MODE_1 = "PDMO".toList ∧
    expected_response_key CMD_PD_MODE_2 = "PDMO".toList ∧
    response_key ("OK+PIO2:1".toList) = "PIO2".toList ∧
    frame_matches CMD_POWER_ON ("OK+PIO2:1".toList) = true ∧
    frame_matches CMD_POWER_ON baseStatFrame = false := by
  refine ⟨send_command_characterisation, ?_, by decide, by decide, by decide, by decide,
    by decide, by decide, by decide, by decide, by decide⟩
  intro f command
  unfold frame_matches
  rw [Bool.and_eq_true, beq_iff_eq]

/-- C7 witness: the AT+PIO21 exchange on a queue holding one unsolicited
STAT frame, the matching PIO2 frame, and a later frame: the PIO2 frame is
returned, exactly the STAT frame is dispatched, and the later frame stays
queued. -/
theorem c7_send_command_matching_witness :
    send_command CMD_POWER_ON [baseStatFrame, "OK+PIO2:1".toList, goodStatFrame] =
      (Except.ok ("OK+PIO2:1".toList), [goodStatFrame], [baseStatFrame]) :=
  ((c7_send_command_matching.1 CMD_POWER_ON
      [baseStatFrame, "OK+PIO2:1".toList, goodStatFrame]).1
    ("OK+PIO2:1".toList) (by decide)).1

/-- C9 witness: enforcement at 99 percent with override on does nothing
even far above charge_max. -/
theorem c9_override_suspends_enforcement_witness :
    enforce_limit stOverride 99 [] = (Except.ok (), stOverride, []) ∧
    (enforce_limit stOverride 99 []).2.1.phase = stOverride.phase ∧
    (enforce_limit stOverride 99 []).2.1.charging = stOverride.charging ∧
    (enforce_limit stOverride 99 []).2.1.cmdLog = stOverride.cmdLog ∧
    (enforce_limit stOverride 99 []).2.2 = [] :=
  c9_override_suspends_enforcement stOverride 99 [] rfl

end Freegie
